import Mathlib

/-!
Verification of the micro-tonal-interface core: a shallow embedding of the
tuning engine (`TuningSystem`), the keyboard layout generators
(`keyboard-layouts.js`) and the voice manager (`AudioEngine`), together with
theorems settling the specification claims about them.

JS numbers are idealised as real numbers (`ℝ`); JS string operations are
modelled on Lean `String`; the JS `Map` of active oscillators is modelled as
an insertion-ordered association list with `Map.get/set/delete` semantics.
-/

noncomputable section

namespace MicroTonal

/-- JS `a % b` on integers truncates toward zero, i.e. `Int.tmod`. -/
def jsMod (a b : ℤ) : ℤ := Int.tmod a b

/-- `Math.floor(a / b)` for integer `a`, `b` is flooring division `Int.fdiv`. -/
def mathFloorDiv (a b : ℤ) : ℤ := Int.fdiv a b

/-- `Math.ceil(a / b)` for integer `a`, `b`. -/
def mathCeilDiv (a b : ℤ) : ℤ := -(Int.fdiv (-a) b)

/-! ## TuningSystem (audio-engine source, class `TuningSystem`) -/

/-- State of the `TuningSystem` class: `this.baseFrequency`. -/
structure TuningSystem where
  baseFrequency : ℝ

/-- `setBaseFrequency(freq) { this.baseFrequency = freq; }` -/
def setBaseFrequency (ts : TuningSystem) (freq : ℝ) : TuningSystem :=
  { ts with baseFrequency := freq }

/-- `getEDOFrequency(steps, divisions = 12, baseNote = 0)`:
`this.baseFrequency * Math.pow(2, (steps - baseNote) / divisions)`. -/
def getEDOFrequency (ts : TuningSystem) (steps : ℤ) (divisions : ℕ)
    (baseNote : ℤ) : ℝ :=
  ts.baseFrequency * (2 : ℝ) ^ ((((steps : ℝ) - (baseNote : ℝ)) / (divisions : ℝ)))

/-- `get12EDO(semitones) { return this.getEDOFrequency(semitones, 12); }` -/
def get12EDO (ts : TuningSystem) (semitones : ℤ) : ℝ :=
  getEDOFrequency ts semitones 12 0

/-- `get24EDO(steps) { return this.getEDOFrequency(steps, 24); }` -/
def get24EDO (ts : TuningSystem) (steps : ℤ) : ℝ :=
  getEDOFrequency ts steps 24 0

/-- `get31EDO(steps) { return this.getEDOFrequency(steps, 31); }` -/
def get31EDO (ts : TuningSystem) (steps : ℤ) : ℝ :=
  getEDOFrequency ts steps 31 0

/-- `get53EDO(steps) { return this.getEDOFrequency(steps, 53); }` -/
def get53EDO (ts : TuningSystem) (steps : ℤ) : ℝ :=
  getEDOFrequency ts steps 53 0

/-- The `justRatios` array from `getJustIntonation`. -/
def justRatios : List ℚ :=
  [1 / 1, 16 / 15, 9 / 8, 6 / 5, 5 / 4, 4 / 3, 45 / 32, 3 / 2, 8 / 5, 5 / 3,
    9 / 5, 15 / 8]

/-- `getJustIntonation(intervalIndex)`:
`octave = Math.floor(intervalIndex / 12)`;
`index = ((intervalIndex % 12) + 12) % 12`; `ratio = justRatios[index]`;
returns `this.baseFrequency * ratio * Math.pow(2, octave)`.
The computed `index` always lies in `[0, 12)`, so the JS array access is in
range; the `getD` default is never reached. -/
def justIntonationFreq (ts : TuningSystem) (intervalIndex : ℤ) : ℝ :=
  let octave : ℤ := mathFloorDiv intervalIndex 12
  let index : ℤ := jsMod (jsMod intervalIndex 12 + 12) 12
  let ratio : ℚ := justRatios.getD index.toNat 0
  ts.baseFrequency * (ratio : ℝ) * (2 : ℝ) ^ ((octave : ℝ))

/-- `getFrequency(tuningType, step)`: the `switch` over the tuning identifier,
defaulting to 12-EDO. -/
def getFrequency (ts : TuningSystem) (tuningType : String) (step : ℤ) : ℝ :=
  if tuningType = "12-edo" then get12EDO ts step
  else if tuningType = "24-edo" then get24EDO ts step
  else if tuningType = "31-edo" then get31EDO ts step
  else if tuningType = "53-edo" then get53EDO ts step
  else if tuningType = "just" then justIntonationFreq ts step
  else get12EDO ts step

/-! ## Claims C1 and C2 -/

lemma tmod_twelve_bounds (i : ℤ) : -12 < Int.tmod i 12 ∧ Int.tmod i 12 < 12 := by
  rcases le_or_lt 0 i with h | h
  · have h1 : (0 : ℤ) ≤ Int.tmod i 12 := Int.tmod_nonneg 12 h
    have h2 : Int.tmod i 12 < 12 := Int.tmod_lt_of_pos i (by norm_num)
    exact ⟨by linarith, h2⟩
  · have hneg : Int.tmod (-i) 12 = -(Int.tmod i 12) := by
      simp only [Int.tmod_def, Int.neg_tdiv]
      ring
    have h1 : (0 : ℤ) ≤ Int.tmod (-i) 12 := Int.tmod_nonneg 12 (by linarith)
    have h2 : Int.tmod (-i) 12 < 12 := Int.tmod_lt_of_pos (-i) (by norm_num)
    constructor <;> linarith [hneg ▸ h1, hneg ▸ h2]

lemma jsMod_fold_eq_emod (i : ℤ) :
    jsMod (jsMod i 12 + 12) 12 = i % 12 := by
  obtain ⟨hb1, hb2⟩ := tmod_twelve_bounds i
  have houter : Int.tmod (Int.tmod i 12 + 12) 12 = (Int.tmod i 12 + 12) % 12 :=
    Int.tmod_eq_emod (by linarith) (by norm_num)
  have hk : Int.tmod i 12 = i - 12 * Int.tdiv i 12 := Int.tmod_def i 12
  generalize hQ : Int.tdiv i 12 = q at hk
  simp only [jsMod]
  rw [houter, hk]
  omega

/-- C1: for each EDO tuning identifier with divisions 12/24/31/53, every
integer step and every base frequency, `getFrequency` returns
`baseFrequency * 2 ^ (step / divisions)` (exactly, in the real-number model
of JS floats). -/
theorem C1_edo_frequencies (ts : TuningSystem) (step : ℤ) :
    getFrequency ts "12-edo" step = ts.baseFrequency * (2 : ℝ) ^ ((step : ℝ) / 12) ∧
    getFrequency ts "24-edo" step = ts.baseFrequency * (2 : ℝ) ^ ((step : ℝ) / 24) ∧
    getFrequency ts "31-edo" step = ts.baseFrequency * (2 : ℝ) ^ ((step : ℝ) / 31) ∧
    getFrequency ts "53-edo" step = ts.baseFrequency * (2 : ℝ) ^ ((step : ℝ) / 53) := by
  refine ⟨?_, ?_, ?_, ?_⟩ <;>
    simp [getFrequency, get12EDO, get24EDO, get31EDO, get53EDO, getEDOFrequency]

/-- C2: the Just Intonation frequency is
`baseFrequency * ratios[((step % 12) + 12) % 12] * 2 ^ ⌊step / 12⌋`
(stated via the mathematical residue `Int.emod` and integer power, which the
JS truncating-mod folding provably equals); in particular
`getFrequency('just', -1) = getFrequency('just', 11) / 2` and
`getFrequency('just', 0) = baseFrequency`. -/
theorem C2_just_intonation (ts : TuningSystem) (step : ℤ) :
    getFrequency ts "just" step
      = ts.baseFrequency * ((justRatios.getD (step % 12).toNat 0 : ℚ) : ℝ)
          * (2 : ℝ) ^ (Int.fdiv step 12) ∧
    getFrequency ts "just" (-1) = getFrequency ts "just" 11 / 2 ∧
    getFrequency ts "just" 0 = ts.baseFrequency := by
  have hgen : ∀ i : ℤ, getFrequency ts "just" i
      = ts.baseFrequency * ((justRatios.getD (i % 12).toNat 0 : ℚ) : ℝ)
          * (2 : ℝ) ^ (Int.fdiv i 12) := by
    intro i
    have h12 : jsMod (jsMod i 12 + 12) 12 = i % 12 := jsMod_fold_eq_emod i
    simp [getFrequency, justIntonationFreq, mathFloorDiv, h12, Real.rpow_intCast]
  refine ⟨hgen step, ?_, ?_⟩
  · rw [hgen (-1), hgen 11]
    have e1 : ((-1 : ℤ) % 12).toNat = 11 := by decide
    have e2 : ((11 : ℤ) % 12).toNat = 11 := by decide
    have f1 : Int.fdiv (-1) 12 = -1 := by decide
    have f2 : Int.fdiv 11 12 = 0 := by decide
    have hr : justRatios.getD 11 0 = 15 / 8 := rfl
    rw [e1, e2, f1, f2, hr]
    norm_num
    ring
  · rw [hgen 0]
    have e0 : ((0 : ℤ) % 12).toNat = 0 := by decide
    have f0 : Int.fdiv 0 12 = 0 := by decide
    have hr0 : justRatios.getD 0 0 = 1 / 1 := rfl
    rw [e0, f0, hr0]
    norm_num

/-! ## Keyboard layouts (keyboard-layouts.js) -/

/-- The `noteNames` array of `KeyboardLayout.getNoteNameFromStep`. -/
def noteNames : List String :=
  ["C", "C#", "D", "D#", "E", "F"] ++ ["F#", "G", "G#", "A", "A#", "B"]

/-- JS array access `l[i]` interpolated into a template literal: a negative or
out-of-range index yields `undefined`, which stringifies as `"undefined"`. -/
def jsIndex (l : List String) (i : ℤ) : String :=
  if h : 0 ≤ i ∧ i.toNat < l.length then l.get ⟨i.toNat, h.2⟩ else "undefined"

/-- JS `s.includes(c)` for a single-character needle: membership of the
character in the string. -/
def jsIncludesChar (s : String) (c : Char) : Bool := s.data.contains c

/-- `parseInt(tuningType.split('-')[0])`: the decimal-digit prefix of the part
before the first dash; `none` models the `NaN` result when no digit leads. -/
def parseLeadingInt (s : String) : Option ℕ :=
  let head := s.takeWhile (fun c => c != '-')
  let digits := head.takeWhile Char.isDigit
  if digits.isEmpty then none else digits.toNat?

/-- `KeyboardLayout.getNoteNameFromStep(step, tuningType)`. In the 24-EDO even
branch `noteIndex / 2` is an exact integer division (truncating division
agrees). In the fallback branch a zero division count would give JS
`Infinity`/`NaN` octaves, stringified accordingly. -/
def getNoteNameFromStep (step : ℤ) (tuningType : String) : String :=
  if tuningType = "12-edo" ∨ tuningType = "just" then
    let octave := mathFloorDiv step 12 + 4
    let note := jsIndex noteNames (jsMod (jsMod step 12 + 12) 12)
    note ++ toString octave
  else if tuningType = "24-edo" then
    let octave := mathFloorDiv step 24 + 4
    let noteIndex := jsMod step 24
    if jsMod noteIndex 2 = 0 then
      jsIndex noteNames (Int.tdiv noteIndex 2) ++ toString octave
    else
      let baseNote := jsIndex noteNames (mathFloorDiv noteIndex 2)
      let nextNote := jsIndex noteNames (mathCeilDiv noteIndex 2)
      baseNote ++ "♯/♭" ++ nextNote ++ toString octave
  else
    let octave : String :=
      match parseLeadingInt tuningType with
      | none => "NaN"
      | some d =>
        if d = 0 then
          if step > 0 then "Infinity" else if step < 0 then "-Infinity" else "NaN"
        else toString (mathFloorDiv step (d : ℤ) + 4)
    "St" ++ toString step ++ "O" ++ octave

/-- A key descriptor as pushed by the layout generators. -/
structure KeyDescriptor where
  id : String
  step : ℤ
  frequency : ℝ
  noteName : String
  isAccidental : Bool
  row : ℕ
  col : ℕ

/-- `chromaticLayout.generator`: `totalKeys = rows * cols`, `startNote = -12`,
one key per linear index `i`, with `row = Math.floor(i / cols)` and
`col = i % cols`. -/
def chromaticGenerator (ts : TuningSystem) (tuningType : String)
    (rows cols : ℕ) : List KeyDescriptor :=
  (List.range (rows * cols)).map fun (i : ℕ) =>
    let step : ℤ := -12 + (i : ℤ)
    let noteName := getNoteNameFromStep step tuningType
    { id := "key-" ++ toString i
      step := step
      frequency := getFrequency ts tuningType step
      noteName := noteName
      isAccidental := jsIncludesChar noteName '#' || jsIncludesChar noteName '♯'
      row := i / cols
      col := i % cols }

/-- `wickiHaydenLayout.generator`: nested row/col loops in row-major order,
`step = col * 7 + row * 2 - 12`, `isAccidental` hard-coded `false`, ids
`key-0, key-1, …` following the running `keyId` counter. -/
def wickiHaydenGenerator (ts : TuningSystem) (tuningType : String)
    (rows cols : ℕ) : List KeyDescriptor :=
  (List.range rows).flatMap fun (row : ℕ) =>
    (List.range cols).map fun (col : ℕ) =>
      let step : ℤ := (col : ℤ) * 7 + (row : ℤ) * 2 - 12
      { id := "key-" ++ toString (row * cols + col)
        step := step
        frequency := getFrequency ts tuningType step
        noteName := getNoteNameFromStep step tuningType
        isAccidental := false
        row := row
        col := col }

/-- `harmonicLayout.generator`: nested row/col loops,
`step = col * 4 + row * 3 - 12`, `isAccidental` hard-coded `false`. -/
def harmonicGenerator (ts : TuningSystem) (tuningType : String)
    (rows cols : ℕ) : List KeyDescriptor :=
  (List.range rows).flatMap fun (row : ℕ) =>
    (List.range cols).map fun (col : ℕ) =>
      let step : ℤ := (col : ℤ) * 4 + (row : ℤ) * 3 - 12
      { id := "key-" ++ toString (row * cols + col)
        step := step
        frequency := getFrequency ts tuningType step
        noteName := getNoteNameFromStep step tuningType
        isAccidental := false
        row := row
        col := col }

/-- `jankoLayout.generator`: nested row/col loops,
`rowOffset = row % 2`, `step = col * 2 + rowOffset + Math.floor(row / 2) * 12 - 12`,
`isAccidental` from the sharp markers of the note name. -/
def jankoGenerator (ts : TuningSystem) (tuningType : String)
    (rows cols : ℕ) : List KeyDescriptor :=
  (List.range rows).flatMap fun (row : ℕ) =>
    (List.range cols).map fun (col : ℕ) =>
      let rowOffset : ℤ := (row : ℤ) % 2
      let step : ℤ := (col : ℤ) * 2 + rowOffset + ((row / 2 : ℕ) : ℤ) * 12 - 12
      let noteName := getNoteNameFromStep step tuningType
      { id := "key-" ++ toString (row * cols + col)
        step := step
        frequency := getFrequency ts tuningType step
        noteName := noteName
        isAccidental := jsIncludesChar noteName '#' || jsIncludesChar noteName '♯'
        row := row
        col := col }

/-- The four registered layouts of the `LAYOUTS` object literal. -/
inductive LayoutKind
  | chromatic
  | wickiHayden
  | harmonic
  | janko
  deriving DecidableEq

/-- Property names every plain JS object literal inherits from
`Object.prototype` (the ES2023 set, `__proto__` accessor included): bracket
lookup on `LAYOUTS` finds these on the prototype chain, and each holds a
function or object, hence a truthy value. -/
def objectPrototypeKeys : List String :=
  ["constructor", "hasOwnProperty", "isPrototypeOf", "propertyIsEnumerable",
    "toLocaleString", "toString", "valueOf", "__proto__", "__defineGetter__",
    "__defineSetter__", "__lookupGetter__", "__lookupSetter__"]

/-- A value produced by JS property lookup on the `LAYOUTS` object literal:
one of its four own layout-config objects, a member inherited from
`Object.prototype`, or `undefined`. Only `undefined` is falsy here. -/
inductive JsPropValue
  | layoutObj (k : LayoutKind)
  | protoMember (name : String)
  | undefinedVal
  deriving DecidableEq

/-- `LAYOUTS[name]`: JS bracket lookup on the registry object literal — the
four own keys first, then the `Object.prototype` chain, then `undefined`. -/
def LAYOUTS (name : String) : JsPropValue :=
  if name = "chromatic" then .layoutObj .chromatic
  else if name = "wicki-hayden" then .layoutObj .wickiHayden
  else if name = "harmonic" then .layoutObj .harmonic
  else if name = "janko" then .layoutObj .janko
  else if name ∈ objectPrototypeKeys then .protoMember name
  else .undefinedVal

/-- `getLayout(layoutName) { return LAYOUTS[layoutName] || LAYOUTS.chromatic; }`
`undefined` is the only falsy value the lookup can produce; own layout
objects and inherited prototype members are truthy and returned as-is. -/
def getLayout (name : String) : JsPropValue :=
  match LAYOUTS name with
  | .undefinedVal => .layoutObj .chromatic
  | v => v

/-- Dispatch from a registered layout to its generator. -/
def generatorOf : LayoutKind → TuningSystem → String → ℕ → ℕ → List KeyDescriptor
  | .chromatic => chromaticGenerator
  | .wickiHayden => wickiHaydenGenerator
  | .harmonic => harmonicGenerator
  | .janko => jankoGenerator

/-- Step field of the key at linear position `i` of a generated batch. -/
def stepAt (l : List KeyDescriptor) (i : ℕ) : Option ℤ :=
  l[i]?.map KeyDescriptor.step

/-- Note label of the key at linear position `i` of a generated batch. -/
def labelAt (l : List KeyDescriptor) (i : ℕ) : Option String :=
  l[i]?.map KeyDescriptor.noteName

/-- Accidental flag of the key at linear position `i` of a generated batch. -/
def accAt (l : List KeyDescriptor) (i : ℕ) : Option Bool :=
  l[i]?.map KeyDescriptor.isAccidental

/-- Grid position of the key at linear position `i` of a generated batch. -/
def posAt (l : List KeyDescriptor) (i : ℕ) : Option (ℕ × ℕ) :=
  l[i]?.map fun k => (k.row, k.col)

lemma grid_index_lt {rows cols row col : ℕ} (hr : row < rows) (hc : col < cols) :
    row * cols + col < rows * cols := by
  calc row * cols + col < row * cols + cols := by omega
    _ = (row + 1) * cols := by ring
    _ ≤ rows * cols := Nat.mul_le_mul_right cols hr

lemma flatMap_grid_length {α : Type} (rows cols : ℕ) (f : ℕ → ℕ → α) :
    ((List.range rows).flatMap fun r => (List.range cols).map fun c => f r c).length
      = rows * cols := by
  induction rows with
  | zero => simp
  | succ n ih =>
    rw [List.range_succ, List.flatMap_append]
    simp [ih, Nat.succ_mul]

lemma flatMap_grid_getElem? {α : Type} {rows cols row col : ℕ} (f : ℕ → ℕ → α)
    (hr : row < rows) (hc : col < cols) :
    ((List.range rows).flatMap fun r => (List.range cols).map fun c => f r c)[row * cols + col]?
      = some (f row col) := by
  induction rows with
  | zero => exact absurd hr (Nat.not_lt_zero row)
  | succ n ih =>
    rw [List.range_succ, List.flatMap_append]
    rcases Nat.lt_succ_iff_lt_or_eq.mp hr with h | rfl
    · rw [List.getElem?_append]
      rw [if_pos (by rw [flatMap_grid_length]; exact grid_index_lt h hc)]
      exact ih h
    · rw [List.getElem?_append_right (by rw [flatMap_grid_length]; omega)]
      rw [flatMap_grid_length]
      have hidx : row * cols + col - row * cols = col := by omega
      rw [hidx]
      simp [List.getElem?_map, List.getElem?_range hc]

lemma flatMap_grid_getElem_idx {α : Type} {rows cols row col idx : ℕ}
    (f : ℕ → ℕ → α) (hr : row < rows) (hc : col < cols)
    (hidx : idx = row * cols + col) :
    ((List.range rows).flatMap fun r => (List.range cols).map fun c => f r c)[idx]?
      = some (f row col) := by
  subst hidx
  exact flatMap_grid_getElem? f hr hc

lemma grid_rowcol (row cols col : ℕ) (hc : col < cols) :
    (row * cols + col) / cols = row ∧ (row * cols + col) % cols = col := by
  have h0 : 0 < cols := Nat.lt_of_le_of_lt (Nat.zero_le col) hc
  have hcomm : row * cols + col = col + cols * row := by ring
  constructor
  · rw [hcomm, Nat.add_mul_div_left col row h0, Nat.div_eq_of_lt hc, Nat.zero_add]
  · rw [hcomm, Nat.add_mul_mod_self_left, Nat.mod_eq_of_lt hc]

lemma chromaticGenerator_getElem? (ts : TuningSystem) (tuningType : String)
    (rows cols i : ℕ) (hi : i < rows * cols) :
    (chromaticGenerator ts tuningType rows cols)[i]?
      = some { id := "key-" ++ toString i
               step := -12 + (i : ℤ)
               frequency := getFrequency ts tuningType (-12 + (i : ℤ))
               noteName := getNoteNameFromStep (-12 + (i : ℤ)) tuningType
               isAccidental :=
                 jsIncludesChar (getNoteNameFromStep (-12 + (i : ℤ)) tuningType) '#'
                   || jsIncludesChar (getNoteNameFromStep (-12 + (i : ℤ)) tuningType) '♯'
               row := i / cols
               col := i % cols } := by
  simp [chromaticGenerator, List.getElem?_map, List.getElem?_range hi]

/-- C7 (code bug in the 24-EDO label branch): for the negative steps the
layouts produce (they start at -12), `step % 24` is negative in JS, so the
even branch indexes `noteNames[-6]`, which is `undefined`, and the label
becomes `"undefined3"` rather than a chromatic note name; odd negative
sub-steps likewise yield `"undefined♯/♭undefined3"`. Non-negative sub-steps
do get the claimed labels (step 2 is `"C#4"`, step 3 is `"C#♯/♭D4"`). -/
theorem C7_quarter_tone_labels_negative_steps :
    getNoteNameFromStep (-12) "24-edo" = "undefined3" ∧
    getNoteNameFromStep (-11) "24-edo" = "undefined♯/♭undefined3" ∧
    getNoteNameFromStep 2 "24-edo" = "C#4" ∧
    getNoteNameFromStep 3 "24-edo" = "C#♯/♭D4" := by
  refine ⟨?_, ?_, ?_, ?_⟩ <;> rfl

/-- C3: every generated key descriptor at grid position `(row, col)` carries
the per-layout step formula (chromatic `row*cols + col - 12`, Wicki-Hayden
`col*7 + row*2 - 12`, Harmonic Table `col*4 + row*3 - 12`, Janko
`col*2 + row % 2 + (row/2)*12 - 12`); concretely, the 4×12 chromatic grid
runs steps -12..35 in row-major order with the step-0 key labelled `"C4"`
under 12-EDO, and Wicki-Hayden yields step -12 at `(0,0)` and -3 at `(1,1)`
(linear index 9 in the default 6×8 grid). -/
theorem C3_layout_step_formulas (ts : TuningSystem) (tuningType : String)
    (rows cols row col : ℕ) (hr : row < rows) (hc : col < cols) :
    (stepAt (chromaticGenerator ts tuningType rows cols) (row * cols + col)
        = some ((row : ℤ) * (cols : ℤ) + (col : ℤ) - 12)
      ∧ posAt (chromaticGenerator ts tuningType rows cols) (row * cols + col)
        = some (row, col)) ∧
    (stepAt (wickiHaydenGenerator ts tuningType rows cols) (row * cols + col)
        = some ((col : ℤ) * 7 + (row : ℤ) * 2 - 12)
      ∧ posAt (wickiHaydenGenerator ts tuningType rows cols) (row * cols + col)
        = some (row, col)) ∧
    (stepAt (harmonicGenerator ts tuningType rows cols) (row * cols + col)
        = some ((col : ℤ) * 4 + (row : ℤ) * 3 - 12)
      ∧ posAt (harmonicGenerator ts tuningType rows cols) (row * cols + col)
        = some (row, col)) ∧
    (stepAt (jankoGenerator ts tuningType rows cols) (row * cols + col)
        = some ((col : ℤ) * 2 + (row : ℤ) % 2 + ((row / 2 : ℕ) : ℤ) * 12 - 12)
      ∧ posAt (jankoGenerator ts tuningType rows cols) (row * cols + col)
        = some (row, col)) ∧
    (∀ i : ℕ, i < 48 →
      stepAt (chromaticGenerator ts "12-edo" 4 12) i = some (-12 + (i : ℤ))) ∧
    labelAt (chromaticGenerator ts "12-edo" 4 12) 12 = some "C4" ∧
    stepAt (chromaticGenerator ts "12-edo" 4 12) 12 = some 0 ∧
    stepAt (wickiHaydenGenerator ts "12-edo" 6 8) 0 = some (-12) ∧
    stepAt (wickiHaydenGenerator ts "12-edo" 6 8) 9 = some (-3) := by
  have hlt := grid_index_lt hr hc
  obtain ⟨hdiv, hmod⟩ := grid_rowcol row cols col hc
  refine ⟨⟨?_, ?_⟩, ⟨?_, ?_⟩, ⟨?_, ?_⟩, ⟨?_, ?_⟩, ?_, ?_, ?_, ?_, ?_⟩
  · rw [stepAt, chromaticGenerator_getElem? ts tuningType rows cols _ hlt]
    simp only [Option.map_some']
    congr 1
  · rw [posAt, chromaticGenerator_getElem? ts tuningType rows cols _ hlt]
    simp [hdiv, hmod]
  · rw [stepAt]
    simp only [wickiHaydenGenerator]
    rw [flatMap_grid_getElem_idx _ hr hc rfl]
    simp
  · rw [posAt]
    simp only [wickiHaydenGenerator]
    rw [flatMap_grid_getElem_idx _ hr hc rfl]
    simp
  · rw [stepAt]
    simp only [harmonicGenerator]
    rw [flatMap_grid_getElem_idx _ hr hc rfl]
    simp
  · rw [posAt]
    simp only [harmonicGenerator]
    rw [flatMap_grid_getElem_idx _ hr hc rfl]
    simp
  · rw [stepAt]
    simp only [jankoGenerator]
    rw [flatMap_grid_getElem_idx _ hr hc rfl]
    simp
  · rw [posAt]
    simp only [jankoGenerator]
    rw [flatMap_grid_getElem_idx _ hr hc rfl]
    simp
  · intro i hi
    rw [stepAt, chromaticGenerator_getElem? ts "12-edo" 4 12 i (by omega)]
    simp
  · rw [labelAt, chromaticGenerator_getElem? ts "12-edo" 4 12 12 (by norm_num)]
    simp only [Option.map_some']
    norm_num
    rfl
  · rw [stepAt, chromaticGenerator_getElem? ts "12-edo" 4 12 12 (by norm_num)]
    simp
  · rw [stepAt]
    simp only [wickiHaydenGenerator]
    rw [flatMap_grid_getElem_idx _ (show (0 : ℕ) < 6 by norm_num)
      (show (0 : ℕ) < 8 by norm_num) (by norm_num)]
    simp
  · rw [stepAt]
    simp only [wickiHaydenGenerator]
    rw [flatMap_grid_getElem_idx _ (show (1 : ℕ) < 6 by norm_num)
      (show (1 : ℕ) < 8 by norm_num) (by norm_num)]
    simp

/-- Witness for C3 at the concrete grid 6×8, position (1, 1). -/
theorem C3_layout_step_formulas_witness :
    (1 : ℕ) < 6 ∧ (1 : ℕ) < 8 ∧
    ((stepAt (chromaticGenerator ⟨440⟩ "12-edo" 6 8) (1 * 8 + 1)
        = some ((1 : ℤ) * (8 : ℤ) + (1 : ℤ) - 12)
      ∧ posAt (chromaticGenerator ⟨440⟩ "12-edo" 6 8) (1 * 8 + 1)
        = some (1, 1)) ∧
    (stepAt (wickiHaydenGenerator ⟨440⟩ "12-edo" 6 8) (1 * 8 + 1)
        = some ((1 : ℤ) * 7 + (1 : ℤ) * 2 - 12)
      ∧ posAt (wickiHaydenGenerator ⟨440⟩ "12-edo" 6 8) (1 * 8 + 1)
        = some (1, 1)) ∧
    (stepAt (harmonicGenerator ⟨440⟩ "12-edo" 6 8) (1 * 8 + 1)
        = some ((1 : ℤ) * 4 + (1 : ℤ) * 3 - 12)
      ∧ posAt (harmonicGenerator ⟨440⟩ "12-edo" 6 8) (1 * 8 + 1)
        = some (1, 1)) ∧
    (stepAt (jankoGenerator ⟨440⟩ "12-edo" 6 8) (1 * 8 + 1)
        = some ((1 : ℤ) * 2 + (1 : ℤ) % 2 + ((1 / 2 : ℕ) : ℤ) * 12 - 12)
      ∧ posAt (jankoGenerator ⟨440⟩ "12-edo" 6 8) (1 * 8 + 1)
        = some (1, 1)) ∧
    (∀ i : ℕ, i < 48 →
      stepAt (chromaticGenerator ⟨440⟩ "12-edo" 4 12) i = some (-12 + (i : ℤ))) ∧
    labelAt (chromaticGenerator ⟨440⟩ "12-edo" 4 12) 12 = some "C4" ∧
    stepAt (chromaticGenerator ⟨440⟩ "12-edo" 4 12) 12 = some 0 ∧
    stepAt (wickiHaydenGenerator ⟨440⟩ "12-edo" 6 8) 0 = some (-12) ∧
    stepAt (wickiHaydenGenerator ⟨440⟩ "12-edo" 6 8) 9 = some (-3)) :=
  ⟨by norm_num, by norm_num,
    C3_layout_step_formulas ⟨440⟩ "12-edo" 6 8 1 1 (by norm_num) (by norm_num)⟩

/-- C6 counterexample: in the default 6×8 Wicki-Hayden grid under 12-EDO the
key at (row 3, col 1) — linear index 25 — has step 1, note label `"C#4"`
containing a sharp marker, yet `isAccidental = false` (the generator
hard-codes `false`), refuting the claimed equivalence for every layout. -/
theorem C6_counterexample :
    labelAt (wickiHaydenGenerator ⟨440⟩ "12-edo" 6 8) 25 = some "C#4" ∧
    accAt (wickiHaydenGenerator ⟨440⟩ "12-edo" 6 8) 25 = some false ∧
    jsIncludesChar "C#4" '#' = true := by
  refine ⟨?_, ?_, by decide⟩
  · rw [labelAt]
    simp only [wickiHaydenGenerator]
    rw [flatMap_grid_getElem_idx _ (show (3 : ℕ) < 6 by norm_num)
      (show (1 : ℕ) < 8 by norm_num) (by norm_num)]
    simp only [Option.map_some']
    have h1 : ((1 : ℕ) : ℤ) * 7 + ((3 : ℕ) : ℤ) * 2 - 12 = 1 := by norm_num
    rw [h1]
    rfl
  · rw [accAt]
    simp only [wickiHaydenGenerator]
    rw [flatMap_grid_getElem_idx _ (show (3 : ℕ) < 6 by norm_num)
      (show (1 : ℕ) < 8 by norm_num) (by norm_num)]
    rfl

/-- C6 amended: the chromatic and Janko generators set `isAccidental`
exactly when the note label contains a sharp marker (`'#'` or `'♯'`), while
the Wicki-Hayden and Harmonic Table generators hard-code
`isAccidental = false` for every key regardless of its label. -/
theorem C6_accidental_flags (ts : TuningSystem) (tuningType : String)
    (rows cols : ℕ) :
    (chromaticGenerator ts tuningType rows cols).all
        (fun k => k.isAccidental
          == (jsIncludesChar k.noteName '#' || jsIncludesChar k.noteName '♯')) = true ∧
    (jankoGenerator ts tuningType rows cols).all
        (fun k => k.isAccidental
          == (jsIncludesChar k.noteName '#' || jsIncludesChar k.noteName '♯')) = true ∧
    (wickiHaydenGenerator ts tuningType rows cols).all
        (fun k => k.isAccidental == false) = true ∧
    (harmonicGenerator ts tuningType rows cols).all
        (fun k => k.isAccidental == false) = true := by
  refine ⟨?_, ?_, ?_, ?_⟩ <;>
  · rw [List.all_eq_true]
    intro k hk
    simp only [chromaticGenerator, jankoGenerator, wickiHaydenGenerator,
      harmonicGenerator, List.mem_flatMap, List.mem_map, List.mem_range] at hk
    first
    | (obtain ⟨i, hi, rfl⟩ := hk; simp)
    | (obtain ⟨r, hr, c, hc, rfl⟩ := hk; simp)

/-! ## AudioEngine (audio-engine source, class `AudioEngine`) -/

/-- Per-voice data stored in the `activeOscillators` map: the oscillator's
waveform type and the note's frequency (frequencies are exact here; the gain
node carries no state the claims depend on). -/
structure VoiceData where
  oscType : String
  frequency : ℚ
  deriving DecidableEq

/-- Behaviour of the external Web Audio backend: whether `new AudioContext()`
succeeds, and whether oscillator/gain creation succeeds. -/
structure Env where
  ctxAvailable : Bool
  createOk : Bool
  deriving DecidableEq

/-- A JS exception escaping an engine method. -/
inductive JsError
  | typeError
  deriving DecidableEq

/-- `Map.get` on the insertion-ordered association list. -/
def mapGet (m : List (String × VoiceData)) (k : String) : Option VoiceData :=
  (m.find? (fun p => p.1 == k)).map Prod.snd

/-- `Map.set`: updates in place when the key is present (JS Maps preserve
insertion order on update), otherwise appends. -/
def mapSet (m : List (String × VoiceData)) (k : String) (v : VoiceData) :
    List (String × VoiceData) :=
  if m.any (fun p => p.1 == k) then
    m.map (fun p => if p.1 == k then (k, v) else p)
  else m ++ [(k, v)]

/-- `Map.delete`. -/
def mapDelete (m : List (String × VoiceData)) (k : String) :
    List (String × VoiceData) :=
  m.filter (fun p => p.1 != k)

/-- State of the `AudioEngine` class. `audioContext = true` models
`this.audioContext` holding a context object (`false` models `null`);
`masterGain` exists exactly when initialization succeeded, so it is not
tracked separately. -/
structure AudioEngine where
  audioContext : Bool
  activeOscillators : List (String × VoiceData)
  waveform : String
  volume : ℚ
  initialized : Bool
  deriving DecidableEq

/-- `new AudioEngine()`. -/
def AudioEngine.new : AudioEngine :=
  { audioContext := false
    activeOscillators := []
    waveform := "sine"
    volume := 1 / 2
    initialized := false }

/-- `initialize()`: a no-op when already initialized; otherwise tries to
create the audio context and master gain (success per `env.ctxAvailable`);
on failure the error is caught and logged, leaving the state unchanged. The
`async` body contains no `await`, so it runs synchronously when invoked. -/
def initAudio (env : Env) (e : AudioEngine) : AudioEngine :=
  if e.initialized then e
  else if env.ctxAvailable then
    { e with audioContext := true, initialized := true }
  else e

/-- `setVolume(value)` (the master gain mirrors `volume`; not tracked). -/
def setVolume (e : AudioEngine) (value : ℚ) : AudioEngine :=
  { e with volume := value }

/-- `setWaveform(waveform)`: updates the default and every active
oscillator's type in place. -/
def setWaveform (e : AudioEngine) (w : String) : AudioEngine :=
  { e with waveform := w
           activeOscillators :=
             e.activeOscillators.map fun p => (p.1, { p.2 with oscType := w }) }

/-- `stopNote(noteId)`: a no-op when the id has no entry; otherwise schedules
the release ramp — which reads `this.audioContext.currentTime`, a thrown
`TypeError` when the context is `null` — and deletes the entry. Returns the
post-state and the escaped exception, if any. -/
def stopNote (e : AudioEngine) (noteId : String) :
    AudioEngine × Option JsError :=
  match mapGet e.activeOscillators noteId with
  | none => (e, none)
  | some _ =>
    if e.audioContext then
      ({ e with activeOscillators := mapDelete e.activeOscillators noteId },
        none)
    else (e, some JsError.typeError)

/-- `playNote(noteId, frequency)`: lazily initializes, reads
`this.audioContext.state` — a thrown `TypeError` when the context is still
`null` after a failed initialization, since this read sits outside any
`try`/`catch` — cuts over any existing voice via `stopNote`, then creates
the oscillator/gain pair inside `try { … } catch`, so a synthesis failure is
caught and logged, leaving no entry registered. -/
def playNote (env : Env) (e0 : AudioEngine) (noteId : String)
    (frequency : ℚ) : AudioEngine × Option JsError :=
  let e1 := if e0.initialized then e0 else initAudio env e0
  if e1.audioContext then
    match stopNote e1 noteId with
    | (e2, some err) => (e2, some err)
    | (e2, none) =>
      if env.createOk then
        let v : VoiceData := { oscType := e2.waveform, frequency := frequency }
        ({ e2 with activeOscillators := mapSet e2.activeOscillators noteId v },
          none)
      else (e2, none)
  else (e1, some JsError.typeError)

/-- `stopAllNotes()`: `stopNote` for every tracked id, aborting if one call
throws. -/
def stopAllNotes (e : AudioEngine) : AudioEngine × Option JsError :=
  (e.activeOscillators.map Prod.fst).foldl
    (fun acc nid =>
      match acc with
      | (st, some err) => (st, some err)
      | (st, none) => stopNote st nid)
    (e, none)

/-- `getActiveNotes()`. -/
def getActiveNotes (e : AudioEngine) : List (String × ℚ) :=
  e.activeOscillators.map fun p => (p.1, p.2.frequency)

/-- UI note-lifecycle operations against the engine. -/
inductive EngineOp
  | noteOn (noteId : String) (frequency : ℚ)
  | noteOff (noteId : String)

/-- Execute one operation; an exception propagates to the caller while the
engine keeps the mutations made before the throw. -/
def runOp (env : Env) (e : AudioEngine) : EngineOp → AudioEngine
  | .noteOn noteId f => (playNote env e noteId f).1
  | .noteOff noteId => (stopNote e noteId).1

/-- Execute a sequence of operations. -/
def runOps (env : Env) (e : AudioEngine) (ops : List EngineOp) : AudioEngine :=
  ops.foldl (runOp env) e

/-- Number of ActiveVoice entries registered for a given noteId. -/
def voiceCount (e : AudioEngine) (noteId : String) : ℕ :=
  (e.activeOscillators.filter (fun p => p.1 == noteId)).length

lemma filter_eq_nil_of_key_notin {t : List (String × VoiceData)} {k : String}
    (hnot : k ∉ t.map Prod.fst) :
    t.filter (fun p => p.1 == k) = [] := by
  induction t with
  | nil => rfl
  | cons q r ih =>
    simp only [List.map_cons, List.mem_cons, not_or] at hnot
    have h1 : (q.1 == k) = false :=
      beq_eq_false_iff_ne.mpr (fun h => hnot.1 h.symm)
    rw [List.filter_cons, h1]
    simp only [Bool.false_eq_true, if_false]
    exact ih hnot.2

lemma voiceCount_le_one_of_nodup {m : List (String × VoiceData)} {k : String}
    (h : (m.map Prod.fst).Nodup) :
    (m.filter (fun p => p.1 == k)).length ≤ 1 := by
  induction m with
  | nil => simp
  | cons p t ih =>
    simp only [List.map_cons, List.nodup_cons] at h
    obtain ⟨hnot, hnd⟩ := h
    by_cases hk : p.1 = k
    · have hb : (p.1 == k) = true := beq_iff_eq.mpr hk
      have hfil : t.filter (fun q => q.1 == k) = [] :=
        filter_eq_nil_of_key_notin (hk ▸ hnot)
      simp [List.filter_cons, hb, hfil]
    · have hb : (p.1 == k) = false := beq_eq_false_iff_ne.mpr hk
      rw [List.filter_cons, hb]
      simp only [Bool.false_eq_true, if_false]
      exact ih hnd

lemma mapSet_keys_nodup {m : List (String × VoiceData)} {k : String}
    (v : VoiceData) (h : (m.map Prod.fst).Nodup) :
    ((mapSet m k v).map Prod.fst).Nodup := by
  rw [mapSet]
  by_cases hany : m.any (fun p => p.1 == k) = true
  · rw [if_pos hany]
    have hkeys : (m.map (fun p => if p.1 == k then (k, v) else p)).map Prod.fst
        = m.map Prod.fst := by
      rw [List.map_map]
      apply List.map_congr_left
      intro p _
      by_cases hpk : (p.1 == k) = true
      · simp only [Function.comp_apply, hpk, if_true]
        exact (beq_iff_eq.mp hpk).symm
      · have hne : ¬ p.1 = k := fun hh => hpk (beq_iff_eq.mpr hh)
        simp [Function.comp_apply, hpk, hne]
    rw [hkeys]
    exact h
  · rw [if_neg hany]
    rw [List.map_append]
    rw [List.nodup_append]
    refine ⟨h, by simp, ?_⟩
    intro a ha hb
    simp only [List.map_cons, List.map_nil, List.mem_singleton] at hb
    subst hb
    obtain ⟨p, hp, ha2⟩ := List.mem_map.mp ha
    apply hany
    rw [List.any_eq_true]
    exact ⟨p, hp, beq_iff_eq.mpr ha2⟩

lemma mapDelete_keys_nodup {m : List (String × VoiceData)} {k : String}
    (h : (m.map Prod.fst).Nodup) :
    ((mapDelete m k).map Prod.fst).Nodup :=
  ((List.filter_sublist m).map Prod.fst).nodup h

lemma mapDelete_eq_self_of_get_none {m : List (String × VoiceData)}
    {k : String} (h : mapGet m k = none) : mapDelete m k = m := by
  rw [mapGet] at h
  have hfind : m.find? (fun p => p.1 == k) = none := by
    cases hf : m.find? (fun p => p.1 == k) with
    | none => rfl
    | some p => rw [hf] at h; exact absurd h (by simp)
  have hall := List.find?_eq_none.mp hfind
  rw [mapDelete, List.filter_eq_self]
  intro p hp
  have := hall p hp
  simp only [bne]
  simp only [Bool.not_eq_true'] at this ⊢
  exact (Bool.not_eq_true _).mp this

lemma initAudio_oscillators (env : Env) (e : AudioEngine) :
    (initAudio env e).activeOscillators = e.activeOscillators := by
  rw [initAudio]
  split
  · rfl
  · split <;> rfl

lemma stopNote_keys_nodup {e : AudioEngine} {noteId : String}
    (h : (e.activeOscillators.map Prod.fst).Nodup) :
    ((stopNote e noteId).1.activeOscillators.map Prod.fst).Nodup := by
  rw [stopNote]
  cases mapGet e.activeOscillators noteId with
  | none => exact h
  | some v =>
    cases hc : e.audioContext with
    | true => simpa using mapDelete_keys_nodup h
    | false => simpa [hc] using h

lemma playNote_keys_nodup {env : Env} {e : AudioEngine} {noteId : String}
    {frequency : ℚ} (h : (e.activeOscillators.map Prod.fst).Nodup) :
    ((playNote env e noteId frequency).1.activeOscillators.map Prod.fst).Nodup := by
  rw [playNote]
  have h1 : (((if e.initialized then e else initAudio env e)).activeOscillators.map
      Prod.fst).Nodup := by
    split
    · exact h
    · rw [initAudio_oscillators]; exact h
  set e1 := if e.initialized then e else initAudio env e with he1
  cases hc : e1.audioContext with
  | false => simpa [hc] using h1
  | true =>
    simp only [hc, if_true]
    rcases hs : stopNote e1 noteId with ⟨e2, err⟩
    have h2 : (e2.activeOscillators.map Prod.fst).Nodup := by
      have : ((stopNote e1 noteId).1.activeOscillators.map Prod.fst).Nodup :=
        stopNote_keys_nodup h1
      rw [hs] at this
      exact this
    cases err with
    | some err => exact h2
    | none =>
      cases hcr : env.createOk with
      | false => simpa using h2
      | true => simpa using mapSet_keys_nodup _ h2

lemma runOp_keys_nodup (env : Env) (e : AudioEngine) (op : EngineOp)
    (h : (e.activeOscillators.map Prod.fst).Nodup) :
    ((runOp env e op).activeOscillators.map Prod.fst).Nodup := by
  cases op with
  | noteOn noteId f => exact playNote_keys_nodup h
  | noteOff noteId => exact stopNote_keys_nodup h

lemma runOps_keys_nodup (env : Env) (ops : List EngineOp) (e : AudioEngine)
    (h : (e.activeOscillators.map Prod.fst).Nodup) :
    ((runOps env e ops).activeOscillators.map Prod.fst).Nodup := by
  induction ops generalizing e with
  | nil => exact h
  | cons op rest ih =>
    exact ih (runOp env e op) (runOp_keys_nodup env e op h)

/-- C4: starting from a fresh engine, any sequence of noteOn/noteOff
operations leaves at most one ActiveVoice per noteId; concretely,
`noteOn('a', 440)` then `noteOn('a', 466)` leaves exactly the single voice
`('a', 466)` — the first voice is cut over, not kept alongside. -/
theorem C4_one_voice_per_note (env : Env) (ops : List EngineOp)
    (noteId : String) :
    voiceCount (runOps env AudioEngine.new ops) noteId ≤ 1 ∧
    getActiveNotes (runOps ⟨true, true⟩ AudioEngine.new
      [.noteOn "a" 440, .noteOn "a" 466]) = [("a", 466)] := by
  constructor
  · rw [voiceCount]
    exact voiceCount_le_one_of_nodup
      (runOps_keys_nodup env ops AudioEngine.new (by simp [AudioEngine.new]))
  · rfl

/-- C5 (code bug): when audio-context creation fails, `initialize()` catches
and logs its own error, but `playNote` then dereferences
`this.audioContext` — still `null` — at the iOS resume check
(`this.audioContext.state`), which sits outside any `try`/`catch`: the call
throws a TypeError instead of becoming a logged no-op. No ActiveVoice is
registered. -/
theorem C5_failed_init_throws :
    playNote ⟨false, true⟩ AudioEngine.new "a" 440
      = (AudioEngine.new, some JsError.typeError) ∧
    (playNote ⟨false, true⟩ AudioEngine.new "a" 440).1.activeOscillators
      = [] := by
  constructor <;> rfl

/-- C10: with the engine initialized and its context live, `playNote` first
unconditionally stops and removes any existing voice for the id; when
oscillator creation then fails, the failure is caught and the engine ends
with the id's entry deleted and no replacement — the silenced voice is not
restored — and no error escapes. -/
theorem C10_playNote_not_atomic (env : Env) (e : AudioEngine)
    (noteId : String) (frequency : ℚ) (hinit : e.initialized = true)
    (hctx : e.audioContext = true) (hfail : env.createOk = false) :
    playNote env e noteId frequency
      = ({ e with activeOscillators := mapDelete e.activeOscillators noteId },
          none) := by
  obtain ⟨ctx, osc, wf, vol, init⟩ := e
  obtain rfl : init = true := hinit
  obtain rfl : ctx = true := hctx
  simp only [playNote, stopNote]
  cases hg : mapGet osc noteId with
  | none =>
    simp only [hg, hfail, Bool.false_eq_true, if_false, if_true]
    rw [mapDelete_eq_self_of_get_none hg]
  | some v =>
    simp only [hg, hfail, Bool.false_eq_true, if_false, if_true]

/-- Witness for C10: an initialized engine with one sounding voice `'a'`
and a backend whose oscillator creation fails. -/
theorem C10_playNote_not_atomic_witness :
    (⟨true, [("a", ⟨"sine", 440⟩)], "sine", 1 / 2, true⟩
        : AudioEngine).initialized = true ∧
    (⟨true, [("a", ⟨"sine", 440⟩)], "sine", 1 / 2, true⟩
        : AudioEngine).audioContext = true ∧
    (⟨true, false⟩ : Env).createOk = false ∧
    playNote ⟨true, false⟩
        ⟨true, [("a", ⟨"sine", 440⟩)], "sine", 1 / 2, true⟩ "a" 466
      = ({ (⟨true, [("a", ⟨"sine", 440⟩)], "sine", 1 / 2, true⟩ : AudioEngine)
            with activeOscillators := mapDelete [("a", ⟨"sine", 440⟩)] "a" },
          none) :=
  ⟨rfl, rfl, rfl,
    C10_playNote_not_atomic ⟨true, false⟩
      ⟨true, [("a", ⟨"sine", 440⟩)], "sine", 1 / 2, true⟩ "a" 466 rfl rfl rfl⟩

/-! ## Claims C8 and C9 -/

/-- C8 counterexample: `setBaseFrequency` performs no validation, so passing
-1 stores a non-positive base frequency, refuting the claim that every
non-positive value is rejected or clamped before assignment. -/
theorem C8_counterexample :
    (setBaseFrequency ⟨440⟩ (-1)).baseFrequency = -1 ∧
    ¬ (0 : ℝ) < (setBaseFrequency ⟨440⟩ (-1)).baseFrequency := by
  refine ⟨rfl, ?_⟩
  rw [setBaseFrequency]
  norm_num

/-- C8 amended: the setter stores the given value unchanged — no rejection,
no clamping — so `baseFrequency > 0` persists only while callers pass
exclusively positive values. -/
theorem C8_setter_stores_unchanged (ts : TuningSystem) (freq : ℝ) :
    (setBaseFrequency ts freq).baseFrequency = freq := rfl

/-- C9 counterexample: `"toString"` lies outside the recognized layout set,
yet `LAYOUTS['toString']` finds the inherited, truthy
`Object.prototype.toString` on the prototype chain, so the `||` never falls
back and `getLayout` returns that member, not the chromatic layout. -/
theorem C9_counterexample :
    ("toString"
        ∉ (["chromatic", "wicki-hayden", "harmonic", "janko"] : List String)) ∧
    getLayout "toString" = JsPropValue.protoMember "toString" ∧
    getLayout "toString" ≠ getLayout "chromatic" :=
  ⟨by decide, by decide, by decide⟩

/-- C9 amended: an unrecognized tuning identifier falls through the switch
default to the 12-EDO path, and a layout name outside both the recognized
set and the `Object.prototype` property names falls back to the chromatic
layout (names inherited from `Object.prototype`, such as `toString`, are
truthy and returned as-is instead); neither raises an error. -/
theorem C9_unknown_identifier_fallback (ts : TuningSystem) (step : ℤ)
    (tuning layoutName : String)
    (ht : tuning ∉ ["12-edo", "24-edo", "31-edo", "53-edo", "just"])
    (hl : layoutName ∉ ["chromatic", "wicki-hayden", "harmonic", "janko"])
    (hp : layoutName ∉ objectPrototypeKeys) :
    getFrequency ts tuning step = getFrequency ts "12-edo" step ∧
    getLayout layoutName = getLayout "chromatic" := by
  simp only [List.mem_cons, List.not_mem_nil, or_false, not_or] at ht hl
  obtain ⟨h1, h2, h3, h4, h5⟩ := ht
  obtain ⟨g1, g2, g3, g4⟩ := hl
  constructor
  · rw [getFrequency, getFrequency]
    simp [h1, h2, h3, h4, h5]
  · rw [getLayout, getLayout, LAYOUTS, LAYOUTS]
    simp [g1, g2, g3, g4, hp]

/-- Witness for C9 at the unknown identifiers "pythagorean"/"hexagonal". -/
theorem C9_unknown_identifier_fallback_witness :
    ("pythagorean"
        ∉ (["12-edo", "24-edo", "31-edo", "53-edo", "just"] : List String)) ∧
    ("hexagonal"
        ∉ (["chromatic", "wicki-hayden", "harmonic", "janko"] : List String)) ∧
    ("hexagonal" ∉ objectPrototypeKeys) ∧
    (getFrequency ⟨440⟩ "pythagorean" 5 = getFrequency ⟨440⟩ "12-edo" 5 ∧
      getLayout "hexagonal" = getLayout "chromatic") :=
  ⟨by decide, by decide, by decide,
    C9_unknown_identifier_fallback ⟨440⟩ 5 "pythagorean" "hexagonal"
      (by decide) (by decide) (by decide)⟩

end MicroTonal
